import Mathlib

/-!
# Verification of `opc/config.go`

A shallow embedding of the provider's configuration-to-client factory
(`Config.Client`), its logger adapter (`opcLogger.Log`) and the holder accessor
(`Client.getLBaaSClient`).

Everything that lives in another package (the Oracle SDK constructors,
`url.ParseRequestURI`, `cleanhttp`, `logging`, `terraform.VersionString`) is a
field of `Env`, so every statement below is quantified over all behaviours of
those collaborators.  They are functions of the values they are handed: a
constructor observes the SDK configuration through the pointers stored in it
(`OpcConfig.deref`) and answers with a Go result pair `(value, error)`.

Effects are explicit: the process-wide standard logger is the `World` record,
the receiver `*Config` lives in `Memory`, and every call that leaves the package
is appended to a list of `Event`s.
-/

namespace Opc

/-! ## Go values used by the file -/

/-- Go `error` value, observed through its `Error()` method. -/
structure GoError where
  Error : String
deriving DecidableEq, Repr

/-- Dynamically typed Go value (`interface{}`), as found in a variadic argument list. -/
inductive GoValue where
  | nil
  | string (s : String)
  | int (n : Int)
  | bool (b : Bool)
  | error (e : GoError)
  | named (typeName : String) (underlying : String)
deriving DecidableEq, Repr

/-- Type assertion `arg.(string)`: succeeds only when the dynamic type is exactly `string`. -/
def GoValue.assertString : GoValue → Option String
  | .string s => some s
  | _ => none

/-- The type `*url.URL` (non-nil pointee). -/
structure URL where
  Scheme : String
  Host : String
  Path : String
  RawQuery : String
deriving DecidableEq, Repr

/-- The type `tls.Config`, restricted to the fields a composite literal can be told apart by. -/
structure TLSConfig where
  InsecureSkipVerify : Bool
  ServerName : String
  MinVersion : Nat
deriving DecidableEq, Repr

/-- The type `http.Transport`: its TLS settings and an abstract rest. -/
structure Transport where
  TLSClientConfig : Option TLSConfig
  MaxIdleConns : Int
  other : Nat
deriving DecidableEq, Repr

/-- The type `http.Client`. -/
structure HTTPClient where
  Transport : Option Transport
  Timeout : Int
deriving DecidableEq, Repr

/-- The type `compute.Client` of the SDK (pointee of `*compute.Client`). -/
structure ComputeClient where
  handle : Nat
deriving DecidableEq, Repr

/-- The type `storage.Client` of the SDK. -/
structure StorageClient where
  handle : Nat
deriving DecidableEq, Repr

/-- The type `lbaas.Client` of the SDK. -/
structure LBaaSClient where
  handle : Nat
deriving DecidableEq, Repr

/-! ## The types declared in `config.go` -/

/-- Config represents the provider configuration attributes. -/
structure Config where
  User : String
  Password : String
  IdentityDomain : String
  Endpoint : String
  MaxRetries : Int
  Insecure : Bool
  StorageEndpoint : String
  StorageServiceID : String
  LBaaSEndpoint : String
deriving DecidableEq, Repr

/-- Client holder for the OPC (OCI Classic) API clients; `none` is a nil reference. -/
structure Client where
  computeClient : Option ComputeClient
  storageClient : Option StorageClient
  lbaasClient : Option LBaaSClient
deriving DecidableEq, Repr

/-- The empty struct `opcLogger`. -/
structure opcLogger where
deriving DecidableEq, Repr

/-! ## Memory: the receiver and the locals whose address is taken -/

/-- Cells that `Config.Client` takes the address of: the receiver `*c` and `userAgentString`. -/
structure Memory where
  c : Config
  userAgentString : String
deriving DecidableEq, Repr

/-- Addresses of string cells (`&c.User`, ..., `&userAgentString`). -/
inductive StringAddr where
  | cUser
  | cPassword
  | cIdentityDomain
  | cStorageServiceID
  | userAgentString
deriving DecidableEq, Repr

/-- Addresses of int cells (`&c.MaxRetries`). -/
inductive IntAddr where
  | cMaxRetries
deriving DecidableEq, Repr

/-- Load through a `*string`. -/
def Memory.loadString (m : Memory) : StringAddr → String
  | .cUser => m.c.User
  | .cPassword => m.c.Password
  | .cIdentityDomain => m.c.IdentityDomain
  | .cStorageServiceID => m.c.StorageServiceID
  | .userAgentString => m.userAgentString

/-- Load through a `*int`. -/
def Memory.loadInt (m : Memory) : IntAddr → Int
  | .cMaxRetries => m.c.MaxRetries

/-- The SDK type `opc.Config`: credentials are held by pointer. -/
structure OpcConfig where
  Username : StringAddr
  Password : StringAddr
  IdentityDomain : StringAddr
  APIEndpoint : Option URL
  MaxRetries : IntAddr
  LogLevel : Nat
  Logger : Option opcLogger
  HTTPClient : Option HTTPClient
  UserAgent : StringAddr
deriving DecidableEq, Repr

/-- What a callee handed `&config` reads: every pointer field dereferenced. -/
structure OpcConfigView where
  Username : String
  Password : String
  IdentityDomain : String
  APIEndpoint : Option URL
  MaxRetries : Int
  LogLevel : Nat
  Logger : Option opcLogger
  HTTPClient : Option HTTPClient
  UserAgent : String
deriving DecidableEq, Repr

/-- Dereference the pointer fields of an `opc.Config` in the given memory. -/
def OpcConfig.deref (config : OpcConfig) (m : Memory) : OpcConfigView :=
  { Username := m.loadString config.Username
    Password := m.loadString config.Password
    IdentityDomain := m.loadString config.IdentityDomain
    APIEndpoint := config.APIEndpoint
    MaxRetries := m.loadInt config.MaxRetries
    LogLevel := config.LogLevel
    Logger := config.Logger
    HTTPClient := config.HTTPClient
    UserAgent := m.loadString config.UserAgent }

/-! ## The collaborators outside the package -/

/-- Everything `config.go` imports and calls; a Go result pair is `(value, error)`. -/
structure Env where
  /-- The call `terraform.VersionString()`. -/
  VersionString : String
  /-- The call `logging.IsDebugOrHigher()`. -/
  IsDebugOrHigher : Bool
  /-- The constant `opc.LogDebug`. -/
  LogDebug : Nat
  /-- The call `cleanhttp.DefaultClient()`. -/
  DefaultClient : HTTPClient
  /-- The call `cleanhttp.DefaultTransport()`. -/
  DefaultTransport : Transport
  /-- The function `url.ParseRequestURI`. -/
  ParseRequestURI : String → Option URL × Option GoError
  /-- The function `compute.NewComputeClient`. -/
  NewComputeClient : OpcConfigView → Option ComputeClient × Option GoError
  /-- The function `storage.NewStorageClient`. -/
  NewStorageClient : OpcConfigView → Option StorageClient × Option GoError
  /-- The function `lbaas.NewClient`. -/
  LBaaSNewClient : OpcConfigView → Option LBaaSClient × Option GoError

/-- A call that leaves the package, with the argument it was given. -/
inductive Event where
  | ParseRequestURI (rawurl : String)
  | NewComputeClient (cfg : OpcConfigView)
  | NewStorageClient (cfg : OpcConfigView)
  | LBaaSNewClient (cfg : OpcConfigView)
deriving DecidableEq, Repr

/-- The configuration an SDK constructor call received, if the event is one. -/
def Event.view : Event → Option OpcConfigView
  | .ParseRequestURI _ => none
  | .NewComputeClient v => some v
  | .NewStorageClient v => some v
  | .LBaaSNewClient v => some v

/-! ## The standard logger of package `log` -/

/-- One line handed to the standard logger, with the flags in force when it was printed. -/
structure LogLine where
  flags : Int
  msg : String
deriving DecidableEq, Repr

/-- Process-wide state of package `log`: output flags, line header and what was printed. -/
structure World where
  stdFlags : Int
  stdHeader : String
  logged : List LogLine
deriving DecidableEq, Repr

/-- The call `log.SetFlags(flag)` on the standard logger. -/
def log.SetFlags (flag : Int) (w : World) : World :=
  { w with stdFlags := flag }

/-- The call `log.Print(s)` on the standard logger. -/
def log.Print (s : String) (w : World) : World :=
  { w with logged := w.logged ++ [{ flags := w.stdFlags, msg := s }] }

/-- The call `fmt.Sprintf(head ++ "%s", arg)` for a format with one trailing string verb. -/
def fmt.Sprintf (head : String) (arg : String) : String :=
  head ++ arg

/-- The call `fmt.Errorf(head ++ verb, err)` with `verb` one of `%s`, `%+v`: both print `err.Error()`. -/
def fmt.Errorf (head : String) (err : GoError) : GoError :=
  { Error := fmt.Sprintf head err.Error }

/-- The function `strings.Join` of the Go standard library. -/
def strings.Join : List String → String → String
  | [], _ => ""
  | [e], _ => e
  | e :: rest, sep => rest.foldl (fun b s => b ++ sep ++ s) e

/-! ## `opcLogger.Log` (lines 123-132) -/

/-- The loop of `opcLogger.Log`: append every argument that asserts to `string`. -/
def opcLogger.tokens (args : List GoValue) : List String :=
  args.foldl
    (fun tokens arg =>
      match arg.assertString with
      | some token => tokens ++ [token]
      | none => tokens)
    []

/-- The method `opcLogger.Log(args...)`. -/
def opcLogger.Log (_l : opcLogger) (args : List GoValue) (w : World) : World :=
  let tokens := opcLogger.tokens args
  let w := log.SetFlags 0 w
  log.Print (fmt.Sprintf "go-oracle-terraform: " (strings.Join tokens " ")) w

/-! ## `Client.getLBaaSClient` (lines 134-139) -/

/-- The text of the error of `getLBaaSClient`. -/
def lbaasNotInitialized : String :=
  "Load Balancer API client has not been initialized. Ensure the `lbaas_endpoint` for the Load Balancer Classic REST API Endpoint has been declared in the provider configuration."

/-- The method `(*Client).getLBaaSClient`. -/
def Client.getLBaaSClient (c : Client) : Option LBaaSClient × Option GoError :=
  match c.lbaasClient with
  | none => (none, some { Error := lbaasNotInitialized })
  | some p => (some p, none)

/-! ## `Config.Client` (lines 40-119) -/

/-- What a call of `Config.Client` leaves behind: the result pair, the receiver, the logger, the calls made. -/
structure Outcome where
  holder : Option Client
  err : Option GoError
  c : Config
  world : World
  calls : List Event
deriving DecidableEq, Repr

/-- Local state of `Config.Client` between two of its blocks. -/
structure Frame where
  mem : Memory
  config : OpcConfig
  client : Client
  world : World
  calls : List Event
deriving DecidableEq, Repr

/-- A `return holder, err` statement. -/
def Frame.ret (f : Frame) (holder : Option Client) (err : Option GoError) : Outcome :=
  { holder := holder, err := err, c := f.mem.c, world := f.world, calls := f.calls }

/-- Lines 42-69: the SDK configuration, the HTTP client and the empty holder. -/
def Config.setup (env : Env) (c : Config) (w : World) : Frame :=
  let userAgentString := fmt.Sprintf "HashiCorp-Terraform-v" env.VersionString
  let mem : Memory := { c := c, userAgentString := userAgentString }
  let config : OpcConfig :=
    { IdentityDomain := .cIdentityDomain
      Username := .cUser
      Password := .cPassword
      MaxRetries := .cMaxRetries
      UserAgent := .userAgentString
      APIEndpoint := none
      LogLevel := 0
      Logger := none
      HTTPClient := none }
  let config :=
    if env.IsDebugOrHigher then
      { config with LogLevel := env.LogDebug, Logger := some {} }
    else config
  let httpClient := env.DefaultClient
  let httpClient :=
    if mem.c.Insecure then
      let transport := env.DefaultTransport
      let transport :=
        { transport with
          TLSClientConfig := some { InsecureSkipVerify := true, ServerName := "", MinVersion := 0 } }
      { httpClient with Transport := some transport }
    else httpClient
  let config := { config with HTTPClient := some httpClient }
  let client : Client := { computeClient := none, storageClient := none, lbaasClient := none }
  { mem := mem, config := config, client := client, world := w, calls := [] }

/-- Lines 71-84: the compute client. -/
def Config.computeBlock (env : Env) (f : Frame) : Except Outcome Frame :=
  if f.mem.c.Endpoint ≠ "" then
    let parsed := env.ParseRequestURI f.mem.c.Endpoint
    let f := { f with calls := f.calls ++ [Event.ParseRequestURI f.mem.c.Endpoint] }
    match parsed.2 with
    | some err => .error (f.ret none (some (fmt.Errorf "Invalid Compute Endpoint URI: " err)))
    | none =>
      let f := { f with config := { f.config with APIEndpoint := parsed.1 } }
      let built := env.NewComputeClient (f.config.deref f.mem)
      let f := { f with calls := f.calls ++ [Event.NewComputeClient (f.config.deref f.mem)] }
      match built.2 with
      | some err => .error (f.ret none (some err))
      | none =>
        .ok { f with
              client := { f.client with computeClient := built.1 }
              world := log.Print "[DEBUG] Authenticated with Compute Client" f.world }
  else .ok f

/-- Lines 86-102: the storage client. -/
def Config.storageBlock (env : Env) (f : Frame) : Except Outcome Frame :=
  if f.mem.c.StorageEndpoint ≠ "" then
    let parsed := env.ParseRequestURI f.mem.c.StorageEndpoint
    let f := { f with calls := f.calls ++ [Event.ParseRequestURI f.mem.c.StorageEndpoint] }
    match parsed.2 with
    | some err => .error (f.ret none (some (fmt.Errorf "Invalid Storage Endpoint URI: " err)))
    | none =>
      let f := { f with config := { f.config with APIEndpoint := parsed.1 } }
      let f :=
        if f.mem.c.StorageServiceID ≠ "" then
          { f with config := { f.config with IdentityDomain := .cStorageServiceID } }
        else f
      let built := env.NewStorageClient (f.config.deref f.mem)
      let f := { f with calls := f.calls ++ [Event.NewStorageClient (f.config.deref f.mem)] }
      match built.2 with
      | some err => .error (f.ret none (some err))
      | none =>
        .ok { f with
              client := { f.client with storageClient := built.1 }
              world := log.Print "[DEBUG] Authenticated with Storage Client" f.world }
  else .ok f

/-- Lines 104-116: the load balancer client. -/
def Config.lbaasBlock (env : Env) (f : Frame) : Except Outcome Frame :=
  if f.mem.c.LBaaSEndpoint ≠ "" then
    let parsed := env.ParseRequestURI f.mem.c.LBaaSEndpoint
    let f := { f with calls := f.calls ++ [Event.ParseRequestURI f.mem.c.LBaaSEndpoint] }
    match parsed.2 with
    | some err => .error (f.ret none (some (fmt.Errorf "Invalid LBaaS Endpoint URI: " err)))
    | none =>
      let f := { f with config := { f.config with APIEndpoint := parsed.1 } }
      let built := env.LBaaSNewClient (f.config.deref f.mem)
      let f := { f with calls := f.calls ++ [Event.LBaaSNewClient (f.config.deref f.mem)] }
      match built.2 with
      | some err => .error (f.ret none (some err))
      | none =>
        .ok { f with
              client := { f.client with lbaasClient := built.1 }
              world := log.Print "[DEBUG] Authenticated with Load Balancer Client" f.world }
  else .ok f

/-- The method `(*Config).Client`: the three blocks in source order, then `return client, nil`. -/
def Config.Client (env : Env) (c : Config) (w : World) : Outcome :=
  match Config.computeBlock env (Config.setup env c w) with
  | .error out => out
  | .ok f =>
    match Config.storageBlock env f with
    | .error out => out
    | .ok f =>
      match Config.lbaasBlock env f with
      | .error out => out
      | .ok f => f.ret (some f.client) none

/-! ## The specification's reading of `Config.Client`

The definitions of this section follow the words of the specification, not the
code: three services in the fixed order compute, storage, load balancer, each
contributing (when its endpoint is given) a URI validation step followed by a
constructor step, and the run stopping at the first failing step. -/

/-- The three sub-services, in the order the specification lists them. -/
inductive Service where
  | compute
  | storage
  | lbaas
deriving DecidableEq, Repr

/-- The endpoint string of a service. -/
def Service.endpoint (c : Config) : Service → String
  | .compute => c.Endpoint
  | .storage => c.StorageEndpoint
  | .lbaas => c.LBaaSEndpoint

/-- The head of the message reported for an invalid endpoint of a service. -/
def Service.errorHead : Service → String
  | .compute => "Invalid Compute Endpoint URI: "
  | .storage => "Invalid Storage Endpoint URI: "
  | .lbaas => "Invalid LBaaS Endpoint URI: "

/-- The event of calling the SDK constructor of a service. -/
def Service.call : Service → OpcConfigView → Event
  | .compute, v => .NewComputeClient v
  | .storage, v => .NewStorageClient v
  | .lbaas, v => .LBaaSNewClient v

/-- The error component of the result of the SDK constructor of a service. -/
def Service.constructError (env : Env) : Service → OpcConfigView → Option GoError
  | .compute, v => (env.NewComputeClient v).2
  | .storage, v => (env.NewStorageClient v).2
  | .lbaas, v => (env.LBaaSNewClient v).2

/-- The user agent string every constructor is given. -/
def specUserAgent (env : Env) : String :=
  "HashiCorp-Terraform-v" ++ env.VersionString

/-- The one HTTP client of a call: the clean default, with verification switched off when `Insecure`. -/
def specHTTPClient (env : Env) (c : Config) : HTTPClient :=
  if c.Insecure then
    { env.DefaultClient with
      Transport := some
        { env.DefaultTransport with
          TLSClientConfig := some { InsecureSkipVerify := true, ServerName := "", MinVersion := 0 } } }
  else env.DefaultClient

/-- The cell the identity domain pointer of the shared SDK configuration designates on entry to a block. -/
def specIdentityAddr (c : Config) : Service → StringAddr
  | .compute => .cIdentityDomain
  | .storage => .cIdentityDomain
  | .lbaas =>
    if c.StorageEndpoint ≠ "" ∧ c.StorageServiceID ≠ "" then .cStorageServiceID else .cIdentityDomain

/-- The identity domain the constructor of a service receives. -/
def specIdentityDomain (c : Config) : Service → String
  | .compute => c.IdentityDomain
  | .storage => if c.StorageServiceID ≠ "" then c.StorageServiceID else c.IdentityDomain
  | .lbaas =>
    if c.StorageEndpoint ≠ "" ∧ c.StorageServiceID ≠ "" then c.StorageServiceID
    else c.IdentityDomain

/-- The configuration the constructor of a service receives. -/
def specView (env : Env) (c : Config) (s : Service) : OpcConfigView :=
  { Username := c.User
    Password := c.Password
    IdentityDomain := specIdentityDomain c s
    APIEndpoint := (env.ParseRequestURI (s.endpoint c)).1
    MaxRetries := c.MaxRetries
    LogLevel := if env.IsDebugOrHigher then env.LogDebug else 0
    Logger := if env.IsDebugOrHigher then some {} else none
    HTTPClient := some (specHTTPClient env c)
    UserAgent := specUserAgent env }

/-- One step of the fixed order: the call it makes and the error it is reported with, if it fails. -/
structure Step where
  event : Event
  failure : Option GoError
deriving DecidableEq, Repr

/-- The steps of one service: none without an endpoint, else URI validation and then the constructor. -/
def specSteps (env : Env) (c : Config) (s : Service) : List Step :=
  if s.endpoint c = "" then []
  else
    [ { event := .ParseRequestURI (s.endpoint c)
        failure := (env.ParseRequestURI (s.endpoint c)).2.map (fmt.Errorf s.errorHead) },
      { event := s.call (specView env c s)
        failure := s.constructError env (specView env c s) } ]

/-- All steps, in the order compute, storage, load balancer. -/
def specPlan (env : Env) (c : Config) : List Step :=
  specSteps env c .compute ++ specSteps env c .storage ++ specSteps env c .lbaas

/-- Perform steps in order, stopping after the first one that fails. -/
def runSteps : List Step → List Event × Option GoError
  | [] => ([], none)
  | st :: rest =>
    match st.failure with
    | some e => ([st.event], some e)
    | none => (st.event :: (runSteps rest).1, (runSteps rest).2)

/-- The holder of a run without failure: one reference per service that has an endpoint. -/
def specHolder (env : Env) (c : Config) : Client :=
  { computeClient :=
      if c.Endpoint = "" then none else (env.NewComputeClient (specView env c .compute)).1
    storageClient :=
      if c.StorageEndpoint = "" then none else (env.NewStorageClient (specView env c .storage)).1
    lbaasClient :=
      if c.LBaaSEndpoint = "" then none else (env.LBaaSNewClient (specView env c .lbaas)).1 }

/-- Invariant of the frame on entry to a block: where the pointers of the shared SDK configuration point. -/
structure Ready (env : Env) (c : Config) (idAddr : StringAddr) (f : Frame) : Prop where
  mem : f.mem = { c := c, userAgentString := specUserAgent env }
  username : f.config.Username = .cUser
  password : f.config.Password = .cPassword
  maxRetries : f.config.MaxRetries = .cMaxRetries
  userAgent : f.config.UserAgent = .userAgentString
  logLevel : f.config.LogLevel = if env.IsDebugOrHigher then env.LogDebug else 0
  logger : f.config.Logger = if env.IsDebugOrHigher then some {} else none
  httpClient : f.config.HTTPClient = some (specHTTPClient env c)
  identityDomain : f.config.IdentityDomain = idAddr

/-- Whether a client's transport carries `TLSClientConfig.InsecureSkipVerify = true`. -/
def HTTPClient.InsecureSkipVerify (h : HTTPClient) : Bool :=
  match h.Transport with
  | none => false
  | some t =>
    match t.TLSClientConfig with
    | none => false
    | some tls => tls.InsecureSkipVerify

/-! ## Sample collaborators and inputs -/

/-- A URI check that accepts three fixed endpoints and rejects every other string. -/
def sampleParse (rawurl : String) : Option URL × Option GoError :=
  if rawurl = "https://compute.example.com/" then
    (some { Scheme := "https", Host := "compute.example.com", Path := "/", RawQuery := "" }, none)
  else if rawurl = "https://storage.example.com/" then
    (some { Scheme := "https", Host := "storage.example.com", Path := "/", RawQuery := "" }, none)
  else if rawurl = "https://lbaas.example.com/" then
    (some { Scheme := "https", Host := "lbaas.example.com", Path := "/", RawQuery := "" }, none)
  else (none, some { Error := "parse " ++ rawurl ++ ": invalid URI for request" })

/-- Collaborators whose constructors refuse an empty password and otherwise hand out a client. -/
def sampleEnv : Env :=
  { VersionString := "0.11.7"
    IsDebugOrHigher := true
    LogDebug := 3
    DefaultClient :=
      { Transport := some { TLSClientConfig := none, MaxIdleConns := 100, other := 0 }
        Timeout := 0 }
    DefaultTransport := { TLSClientConfig := none, MaxIdleConns := 100, other := 1 }
    ParseRequestURI := sampleParse
    NewComputeClient := fun v =>
      if v.Password = "" then (none, some { Error := "401 Unauthorized" })
      else (some { handle := 1 }, none)
    NewStorageClient := fun v =>
      if v.Password = "" then (none, some { Error := "401 Unauthorized" })
      else (some { handle := 2 }, none)
    LBaaSNewClient := fun v =>
      if v.Password = "" then (none, some { Error := "401 Unauthorized" })
      else (some { handle := 3 }, none) }

/-- A configuration naming all three endpoints and a storage service ID. -/
def sampleConfig : Config :=
  { User := "alice"
    Password := "secret"
    IdentityDomain := "acme"
    Endpoint := "https://compute.example.com/"
    MaxRetries := 2
    Insecure := true
    StorageEndpoint := "https://storage.example.com/"
    StorageServiceID := "Storage-acme"
    LBaaSEndpoint := "https://lbaas.example.com/" }

/-- A configuration without any endpoint. -/
def bareConfig : Config :=
  { sampleConfig with Endpoint := "", StorageEndpoint := "", LBaaSEndpoint := "" }

/-- A configuration whose storage endpoint is not a request URI. -/
def badStorageConfig : Config :=
  { sampleConfig with StorageEndpoint := "storage.example.com" }

/-- A configuration whose password the constructors refuse. -/
def noPasswordConfig : Config :=
  { sampleConfig with Password := "" }

/-- The standard logger as package `log` initialises it: flags `LstdFlags` (3), no header, nothing printed. -/
def sampleWorld : World :=
  { stdFlags := 3, stdHeader := "", logged := [] }

/-! ## Block lemmas -/

theorem setup_ready (env : Env) (c : Config) (w : World) :
    Ready env c .cIdentityDomain (Config.setup env c w) := by
  constructor <;> simp only [Config.setup, fmt.Sprintf, specUserAgent, specHTTPClient] <;>
    split <;> rfl

theorem ready_view {env : Env} {c : Config} {a : StringAddr} {f : Frame}
    (hf : Ready env c a f) (s : Service)
    (hid : Memory.loadString { c := c, userAgentString := specUserAgent env } a
      = specIdentityDomain c s) :
    ({ f.config with APIEndpoint := (env.ParseRequestURI (s.endpoint c)).1 }).deref f.mem =
      specView env c s := by
  obtain ⟨hm, hu, hp, hr, ha, hl, hg, hh, hi⟩ := hf
  simp only [specView, ← hid, OpcConfig.deref, hm, hu, hp, hr, ha, hl, hg, hh, hi,
    Memory.loadString, Memory.loadInt]

theorem computeBlock_spec {env : Env} {c : Config} {f : Frame}
    (hf : Ready env c .cIdentityDomain f) (hcl : f.client.computeClient = none) :
    (∀ e, (runSteps (specSteps env c .compute)).2 = some e →
      Config.computeBlock env f = .error
        { holder := none, err := some e, c := c, world := f.world
          calls := f.calls ++ (runSteps (specSteps env c .compute)).1 }) ∧
    ((runSteps (specSteps env c .compute)).2 = none →
      ∃ g, Config.computeBlock env f = .ok g ∧ Ready env c .cIdentityDomain g ∧
        g.calls = f.calls ++ (runSteps (specSteps env c .compute)).1 ∧
        g.client = { f.client with computeClient := (specHolder env c).computeClient }) := by
  have hv := ready_view hf .compute rfl
  have hm : f.mem.c = c := by rw [hf.mem]
  unfold Config.computeBlock
  simp only [Service.endpoint] at hv
  simp only [hm, hv, specSteps, Service.endpoint, specHolder]
  by_cases h : c.Endpoint = ""
  · simp only [h, ne_eq, not_true_eq_false, ↓reduceIte, runSteps, List.append_nil]
    refine ⟨by simp, fun _ => ⟨f, rfl, hf, rfl, ?_⟩⟩
    rw [← hcl]
  · cases hp : (env.ParseRequestURI c.Endpoint).2 with
    | some e => simp [h, hp, runSteps, Frame.ret, hm, Service.errorHead]
    | none =>
      cases hc : (env.NewComputeClient (specView env c .compute)).2 with
      | some e =>
        simp [h, hp, runSteps, Frame.ret, hm, Service.call, Service.constructError, hc]
      | none =>
        simp only [h, hp, runSteps, Service.call, Service.constructError, hc, ne_eq,
          not_false_eq_true, ↓reduceIte, Option.map_none', List.cons_append, List.nil_append]
        refine ⟨by simp, fun _ => ⟨_, rfl, ?_, ?_, rfl⟩⟩
        · exact ⟨hf.mem, hf.username, hf.password, hf.maxRetries, hf.userAgent, hf.logLevel,
            hf.logger, hf.httpClient, hf.identityDomain⟩
        · simp

theorem ready_override {env : Env} {c : Config} {a : StringAddr} {f : Frame}
    (hf : Ready env c a f) :
    Ready env c .cStorageServiceID
      { f with config := { f.config with IdentityDomain := .cStorageServiceID } } :=
  ⟨hf.mem, hf.username, hf.password, hf.maxRetries, hf.userAgent, hf.logLevel, hf.logger,
    hf.httpClient, rfl⟩

theorem storageBlock_spec {env : Env} {c : Config} {f : Frame}
    (hf : Ready env c .cIdentityDomain f) (hcl : f.client.storageClient = none) :
    (∀ e, (runSteps (specSteps env c .storage)).2 = some e →
      Config.storageBlock env f = .error
        { holder := none, err := some e, c := c, world := f.world
          calls := f.calls ++ (runSteps (specSteps env c .storage)).1 }) ∧
    ((runSteps (specSteps env c .storage)).2 = none →
      ∃ g, Config.storageBlock env f = .ok g ∧ Ready env c (specIdentityAddr c .lbaas) g ∧
        g.calls = f.calls ++ (runSteps (specSteps env c .storage)).1 ∧
        g.client = { f.client with storageClient := (specHolder env c).storageClient }) := by
  have hm : f.mem.c = c := by rw [hf.mem]
  unfold Config.storageBlock
  simp only [hm, specSteps, Service.endpoint, specHolder, specIdentityAddr]
  by_cases h : c.StorageEndpoint = ""
  · simp only [h, ne_eq, not_true_eq_false, ↓reduceIte, runSteps, List.append_nil, false_and]
    refine ⟨by simp, fun _ => ⟨f, rfl, hf, rfl, ?_⟩⟩
    rw [← hcl]
  · cases hp : (env.ParseRequestURI c.StorageEndpoint).2 with
    | some e => simp [h, hp, runSteps, Frame.ret, hm, Service.errorHead]
    | none =>
      by_cases hid : c.StorageServiceID = ""
      · have hv := ready_view hf .storage (by simp [Memory.loadString, specIdentityDomain, hid])
        simp only [Service.endpoint] at hv
        simp only [hid, ne_eq, not_true_eq_false, ↓reduceIte, hv, and_false]
        cases hc : (env.NewStorageClient (specView env c .storage)).2 with
        | some e =>
          simp [h, hp, runSteps, Frame.ret, hm, Service.call, Service.constructError, hc]
        | none =>
          simp only [h, hp, runSteps, Service.call, Service.constructError, hc, ne_eq,
            not_false_eq_true, ↓reduceIte, Option.map_none', List.cons_append, List.nil_append]
          refine ⟨by simp, fun _ => ⟨_, rfl, ?_, ?_, rfl⟩⟩
          · exact ⟨hf.mem, hf.username, hf.password, hf.maxRetries, hf.userAgent, hf.logLevel,
              hf.logger, hf.httpClient, hf.identityDomain⟩
          · simp
      · have hv := ready_view (ready_override hf) .storage
          (by simp [Memory.loadString, specIdentityDomain, hid])
        simp only [Service.endpoint] at hv
        simp only [hid, ne_eq, not_false_eq_true, ↓reduceIte, hv, and_true]
        cases hc : (env.NewStorageClient (specView env c .storage)).2 with
        | some e =>
          simp [h, hp, runSteps, Frame.ret, hm, Service.call, Service.constructError, hc]
        | none =>
          simp only [h, hp, runSteps, Service.call, Service.constructError, hc, ne_eq,
            not_false_eq_true, ↓reduceIte, Option.map_none', List.cons_append, List.nil_append]
          refine ⟨by simp, fun _ => ⟨_, rfl, ?_, ?_, rfl⟩⟩
          · exact ⟨hf.mem, hf.username, hf.password, hf.maxRetries, hf.userAgent, hf.logLevel,
              hf.logger, hf.httpClient, rfl⟩
          · simp

theorem lbaasBlock_spec {env : Env} {c : Config} {f : Frame}
    (hf : Ready env c (specIdentityAddr c .lbaas) f) (hcl : f.client.lbaasClient = none) :
    (∀ e, (runSteps (specSteps env c .lbaas)).2 = some e →
      Config.lbaasBlock env f = .error
        { holder := none, err := some e, c := c, world := f.world
          calls := f.calls ++ (runSteps (specSteps env c .lbaas)).1 }) ∧
    ((runSteps (specSteps env c .lbaas)).2 = none →
      ∃ g, Config.lbaasBlock env f = .ok g ∧ g.mem.c = c ∧
        g.calls = f.calls ++ (runSteps (specSteps env c .lbaas)).1 ∧
        g.client = { f.client with lbaasClient := (specHolder env c).lbaasClient }) := by
  have hv := ready_view hf .lbaas (by
    simp only [specIdentityAddr, specIdentityDomain]
    split <;> rfl)
  have hm : f.mem.c = c := by rw [hf.mem]
  unfold Config.lbaasBlock
  simp only [Service.endpoint] at hv
  simp only [hm, hv, specSteps, Service.endpoint, specHolder]
  by_cases h : c.LBaaSEndpoint = ""
  · simp only [h, ne_eq, not_true_eq_false, ↓reduceIte, runSteps, List.append_nil]
    refine ⟨by simp, fun _ => ⟨f, rfl, hm, rfl, ?_⟩⟩
    rw [← hcl]
  · cases hp : (env.ParseRequestURI c.LBaaSEndpoint).2 with
    | some e => simp [h, hp, runSteps, Frame.ret, hm, Service.errorHead]
    | none =>
      cases hc : (env.LBaaSNewClient (specView env c .lbaas)).2 with
      | some e =>
        simp [h, hp, runSteps, Frame.ret, hm, Service.call, Service.constructError, hc]
      | none =>
        simp only [h, hp, runSteps, Service.call, Service.constructError, hc, ne_eq,
          not_false_eq_true, ↓reduceIte, Option.map_none', List.cons_append, List.nil_append]
        refine ⟨by simp, fun _ => ⟨_, rfl, hm, ?_, rfl⟩⟩
        simp

theorem runSteps_append (l₁ l₂ : List Step) :
    runSteps (l₁ ++ l₂) =
      match (runSteps l₁).2 with
      | some e => ((runSteps l₁).1, some e)
      | none => ((runSteps l₁).1 ++ (runSteps l₂).1, (runSteps l₂).2) := by
  induction l₁ with
  | nil => simp [runSteps]
  | cons st rest ih =>
    cases hs : st.failure with
    | some e => simp [runSteps, hs]
    | none =>
      show runSteps (st :: (rest ++ l₂)) = _
      simp only [runSteps, hs, ih]
      cases hr : (runSteps rest).2 <;> simp

theorem setup_calls (env : Env) (c : Config) (w : World) :
    (Config.setup env c w).calls = [] := rfl

theorem setup_client (env : Env) (c : Config) (w : World) :
    (Config.setup env c w).client =
      { computeClient := none, storageClient := none, lbaasClient := none } := rfl

theorem Client_spec (env : Env) (c : Config) (w : World) :
    (Config.Client env c w).calls = (runSteps (specPlan env c)).1 ∧
    (Config.Client env c w).err = (runSteps (specPlan env c)).2 ∧
    (Config.Client env c w).c = c ∧
    (Config.Client env c w).holder =
      if (runSteps (specPlan env c)).2 = none then some (specHolder env c) else none := by
  obtain ⟨hce, hco⟩ := computeBlock_spec (setup_ready env c w) rfl
  unfold Config.Client
  simp only [specPlan, runSteps_append]
  cases h1 : (runSteps (specSteps env c .compute)).2 with
  | some e => simp [hce e h1, setup_calls]
  | none =>
    obtain ⟨f1, hb1, hr1, hcalls1, hcl1⟩ := hco h1
    obtain ⟨hse, hso⟩ := storageBlock_spec hr1 (by rw [hcl1]; rfl)
    simp only [hb1]
    cases h2 : (runSteps (specSteps env c .storage)).2 with
    | some e => simp [hse e h2, hcalls1, setup_calls]
    | none =>
      obtain ⟨f2, hb2, hr2, hcalls2, hcl2⟩ := hso h2
      obtain ⟨hle, hlo⟩ := lbaasBlock_spec hr2 (by rw [hcl2, hcl1]; rfl)
      simp only [hb2]
      cases h3 : (runSteps (specSteps env c .lbaas)).2 with
      | some e => simp [hle e h3, hcalls2, hcalls1, setup_calls]
      | none =>
        obtain ⟨f3, hb3, hm3, hcalls3, hcl3⟩ := hlo h3
        simp only [hb3, Frame.ret, hm3, hcalls3, hcalls2, hcalls1, hcl3, hcl2, hcl1]
        simp [setup_calls, setup_client, specHolder]

/-! ## Which calls a run makes -/

theorem runSteps_mem {l : List Step} {e : Event} (h : e ∈ (runSteps l).1) :
    e ∈ l.map Step.event := by
  induction l with
  | nil => simp [runSteps] at h
  | cons st rest ih =>
    cases hs : st.failure with
    | some err =>
      simp only [runSteps, hs, List.mem_singleton] at h
      simp [h]
    | none =>
      simp only [runSteps, hs, List.mem_cons] at h
      rcases h with h | h
      · simp [h]
      · simp [ih h]

theorem runSteps_ok {l : List Step} (h : (runSteps l).2 = none) :
    (runSteps l).1 = l.map Step.event := by
  induction l with
  | nil => simp [runSteps]
  | cons st rest ih =>
    cases hs : st.failure with
    | some err => simp [runSteps, hs] at h
    | none =>
      simp only [runSteps, hs] at h
      simp [runSteps, hs, ih h]

theorem specSteps_events (env : Env) (c : Config) (s : Service) :
    (specSteps env c s).map Step.event =
      if s.endpoint c = "" then []
      else [Event.ParseRequestURI (s.endpoint c), s.call (specView env c s)] := by
  unfold specSteps
  split <;> simp

theorem specPlan_mem {env : Env} {c : Config} {e : Event}
    (h : e ∈ (specPlan env c).map Step.event) :
    ∃ s : Service, s.endpoint c ≠ "" ∧
      (e = Event.ParseRequestURI (s.endpoint c) ∨ e = s.call (specView env c s)) := by
  simp only [specPlan, List.map_append, List.mem_append, specSteps_events] at h
  rcases h with (h | h) | h
  · refine ⟨.compute, ?_⟩
    split at h <;> simp_all
  · refine ⟨.storage, ?_⟩
    split at h <;> simp_all
  · refine ⟨.lbaas, ?_⟩
    split at h <;> simp_all

theorem Client_calls_mem {env : Env} {c : Config} {w : World} {e : Event}
    (h : e ∈ (Config.Client env c w).calls) :
    ∃ s : Service, s.endpoint c ≠ "" ∧
      (e = Event.ParseRequestURI (s.endpoint c) ∨ e = s.call (specView env c s)) := by
  rw [(Client_spec env c w).1] at h
  exact specPlan_mem (runSteps_mem h)

theorem Client_view_mem {env : Env} {c : Config} {w : World} {e : Event} {v : OpcConfigView}
    (h : e ∈ (Config.Client env c w).calls) (hv : e.view = some v) :
    ∃ s : Service, e = s.call v ∧ v = specView env c s := by
  obtain ⟨s, _, he | he⟩ := Client_calls_mem h
  · subst he
    simp [Event.view] at hv
  · subst he
    refine ⟨s, ?_, ?_⟩ <;> cases s <;> simp_all [Service.call, Event.view]

theorem specPlan_call_mem (env : Env) (c : Config) (s : Service) (v : OpcConfigView) :
    s.call v ∈ (specPlan env c).map Step.event ↔ s.endpoint c ≠ "" ∧ v = specView env c s := by
  simp only [specPlan, List.map_append, List.mem_append, specSteps_events]
  cases s <;> simp only [Service.call, Service.endpoint] <;> split_ifs <;> simp_all

theorem computeBlock_ok {env : Env} {c : Config} {w : World} {f₁ : Frame}
    (h : Config.computeBlock env (Config.setup env c w) = .ok f₁) :
    (runSteps (specSteps env c .compute)).2 = none ∧ Ready env c .cIdentityDomain f₁ ∧
      f₁.client.storageClient = none := by
  obtain ⟨hce, hco⟩ := computeBlock_spec (setup_ready env c w) rfl
  cases h1 : (runSteps (specSteps env c .compute)).2 with
  | some e =>
    rw [hce e h1] at h
    cases h
  | none =>
    obtain ⟨g, hg, hr, _, hcl⟩ := hco h1
    rw [hg] at h
    cases h
    exact ⟨rfl, hr, by rw [hcl]; rfl⟩

theorem storageBlock_ok {env : Env} {c : Config} {f₁ f₂ : Frame}
    (hr : Ready env c .cIdentityDomain f₁) (hcl : f₁.client.storageClient = none)
    (h : Config.storageBlock env f₁ = .ok f₂) :
    (runSteps (specSteps env c .storage)).2 = none := by
  obtain ⟨hse, _⟩ := storageBlock_spec hr hcl
  cases h2 : (runSteps (specSteps env c .storage)).2 with
  | some e =>
    rw [hse e h2] at h
    cases h
  | none => rfl

theorem specSteps_parse_fails {env : Env} {c : Config} (s : Service) {e : GoError}
    (h : s.endpoint c ≠ "") (hp : (env.ParseRequestURI (s.endpoint c)).2 = some e) :
    runSteps (specSteps env c s) =
      ([Event.ParseRequestURI (s.endpoint c)], some (fmt.Errorf s.errorHead e)) := by
  simp [specSteps, h, hp, runSteps]

theorem foldl_tokens (args : List GoValue) (acc : List String) :
    args.foldl
        (fun tokens arg =>
          match arg.assertString with
          | some token => tokens ++ [token]
          | none => tokens)
        acc =
      acc ++ args.filterMap GoValue.assertString := by
  induction args generalizing acc with
  | nil => simp
  | cons a rest ih =>
    simp only [List.foldl_cons, ih]
    cases ha : a.assertString <;> simp [List.filterMap_cons, ha]

theorem tokens_eq_filterMap (args : List GoValue) :
    opcLogger.tokens args = args.filterMap GoValue.assertString := by
  simp [opcLogger.tokens, foldl_tokens]

theorem foldl_eq_intercalate_go (rest : List String) (sep acc : String) :
    rest.foldl (fun b s => b ++ sep ++ s) acc = String.intercalate.go acc sep rest := by
  induction rest generalizing acc with
  | nil => rfl
  | cons a rest ih => simp only [List.foldl_cons, ih, String.intercalate.go]

theorem Join_eq_intercalate (elems : List String) (sep : String) :
    strings.Join elems sep = String.intercalate sep elems := by
  match elems with
  | [] => rfl
  | [e] => rfl
  | e :: e₂ :: rest =>
    simp only [strings.Join, String.intercalate, foldl_eq_intercalate_go]

/-! ## The claims -/

/-- C7: `Config.Client` leaves the receiver as it found it: after the call, whatever its
outcome, the configuration (all nine fields) is the one passed in. -/
theorem Client_preserves_config (env : Env) (c : Config) (w : World) :
    (Config.Client env c w).c = c ∧
    (Config.Client env c w).c.User = c.User ∧
    (Config.Client env c w).c.Password = c.Password ∧
    (Config.Client env c w).c.IdentityDomain = c.IdentityDomain ∧
    (Config.Client env c w).c.Endpoint = c.Endpoint ∧
    (Config.Client env c w).c.MaxRetries = c.MaxRetries ∧
    (Config.Client env c w).c.Insecure = c.Insecure ∧
    (Config.Client env c w).c.StorageEndpoint = c.StorageEndpoint ∧
    (Config.Client env c w).c.StorageServiceID = c.StorageServiceID ∧
    (Config.Client env c w).c.LBaaSEndpoint = c.LBaaSEndpoint := by
  have h := (Client_spec env c w).2.2.1
  simp [h]

/-- A failing run (the constructor refuses the empty password) and the receiver after it. -/
theorem Client_preserves_config_witness :
    (Config.Client sampleEnv noPasswordConfig sampleWorld).err ≠ none ∧
    (Config.Client sampleEnv noPasswordConfig sampleWorld).c = noPasswordConfig :=
  ⟨by decide, (Client_preserves_config sampleEnv noPasswordConfig sampleWorld).1⟩

/-- C9: every SDK constructor `Config.Client` calls is given its own service's parsed
endpoint and the user, password and retry count of the configuration. -/
theorem constructors_receive_own_values (env : Env) (c : Config) (w : World)
    (v : OpcConfigView) :
    (Event.NewComputeClient v ∈ (Config.Client env c w).calls →
      v.APIEndpoint = (env.ParseRequestURI c.Endpoint).1 ∧
      v.Username = c.User ∧ v.Password = c.Password ∧ v.MaxRetries = c.MaxRetries) ∧
    (Event.NewStorageClient v ∈ (Config.Client env c w).calls →
      v.APIEndpoint = (env.ParseRequestURI c.StorageEndpoint).1 ∧
      v.Username = c.User ∧ v.Password = c.Password ∧ v.MaxRetries = c.MaxRetries) ∧
    (Event.LBaaSNewClient v ∈ (Config.Client env c w).calls →
      v.APIEndpoint = (env.ParseRequestURI c.LBaaSEndpoint).1 ∧
      v.Username = c.User ∧ v.Password = c.Password ∧ v.MaxRetries = c.MaxRetries) := by
  refine ⟨fun h => ?_, fun h => ?_, fun h => ?_⟩ <;>
    obtain ⟨s, hs, rfl⟩ := Client_view_mem h rfl <;>
    cases s <;> simp [Service.call] at hs <;>
    simp [specView, Service.endpoint]

/-- The storage constructor of the sample run is called, with the storage endpoint and the
credentials of the configuration. -/
theorem constructors_receive_own_values_witness :
    Event.NewStorageClient (specView sampleEnv sampleConfig .storage) ∈
        (Config.Client sampleEnv sampleConfig sampleWorld).calls ∧
    (specView sampleEnv sampleConfig .storage).APIEndpoint =
        (sampleEnv.ParseRequestURI "https://storage.example.com/").1 ∧
    (specView sampleEnv sampleConfig .storage).Username = "alice" ∧
    (specView sampleEnv sampleConfig .storage).Password = "secret" ∧
    (specView sampleEnv sampleConfig .storage).MaxRetries = 2 :=
  ⟨by decide,
    (constructors_receive_own_values sampleEnv sampleConfig sampleWorld
      (specView sampleEnv sampleConfig .storage)).2.1 (by decide)⟩

/-- C10: the identity domain a constructor is given is the configured one for compute, the
storage service ID when there is one for storage, and for the load balancer the storage
service ID when both the storage endpoint and the storage service ID are given. -/
theorem constructors_identity_domain (env : Env) (c : Config) (w : World)
    (v : OpcConfigView) :
    (Event.NewComputeClient v ∈ (Config.Client env c w).calls →
      v.IdentityDomain = c.IdentityDomain) ∧
    (Event.NewStorageClient v ∈ (Config.Client env c w).calls →
      v.IdentityDomain =
        if c.StorageServiceID ≠ "" then c.StorageServiceID else c.IdentityDomain) ∧
    (Event.LBaaSNewClient v ∈ (Config.Client env c w).calls →
      v.IdentityDomain =
        if c.StorageEndpoint ≠ "" ∧ c.StorageServiceID ≠ "" then c.StorageServiceID
        else c.IdentityDomain) := by
  refine ⟨fun h => ?_, fun h => ?_, fun h => ?_⟩ <;>
    obtain ⟨s, hs, rfl⟩ := Client_view_mem h rfl <;>
    cases s <;> simp [Service.call] at hs <;>
    simp [specView, specIdentityDomain]

/-- The load balancer constructor of the sample run is called with the storage service ID as
identity domain. -/
theorem constructors_identity_domain_witness :
    Event.LBaaSNewClient (specView sampleEnv sampleConfig .lbaas) ∈
        (Config.Client sampleEnv sampleConfig sampleWorld).calls ∧
    (specView sampleEnv sampleConfig .lbaas).IdentityDomain =
      if sampleConfig.StorageEndpoint ≠ "" ∧ sampleConfig.StorageServiceID ≠ "" then
        "Storage-acme"
      else "acme" :=
  ⟨by decide,
    (constructors_identity_domain sampleEnv sampleConfig sampleWorld
      (specView sampleEnv sampleConfig .lbaas)).2.2 (by decide)⟩

/-- C8: `Config.Client` is all-or-nothing and stops at the first failing step of the fixed
order (for compute, storage, load balancer: URI validation, then the constructor): the error
is that step's, a constructor's error is passed on as it is, the holder is nil, and the calls
made are exactly the steps up to and including the failing one. -/
theorem Client_first_failure (env : Env) (c : Config) (w : World) :
    ((Config.Client env c w).err ≠ none → (Config.Client env c w).holder = none) ∧
    ((Config.Client env c w).err = none → (Config.Client env c w).holder ≠ none) ∧
    (Config.Client env c w).err = (runSteps (specPlan env c)).2 ∧
    (Config.Client env c w).calls = (runSteps (specPlan env c)).1 ∧
    (∀ (before after : List Step) (st : Step) (e : GoError),
      specPlan env c = before ++ st :: after →
      (∀ s ∈ before, s.failure = none) → st.failure = some e →
        (Config.Client env c w).err = some e ∧
        (Config.Client env c w).holder = none ∧
        (Config.Client env c w).calls = before.map Step.event ++ [st.event]) ∧
    ((∀ s ∈ specPlan env c, s.failure = none) →
      (Config.Client env c w).err = none ∧
      (Config.Client env c w).calls = (specPlan env c).map Step.event) := by
  obtain ⟨hcalls, herr, _, hholder⟩ := Client_spec env c w
  refine ⟨?_, ?_, herr, hcalls, ?_, ?_⟩
  · intro h
    rw [herr] at h
    rw [hholder, if_neg h]
  · intro h
    rw [herr] at h
    rw [hholder, if_pos h]
    simp
  · intro before after st e hplan hbefore hst
    have hrun : runSteps (specPlan env c) = (before.map Step.event ++ [st.event], some e) := by
      rw [hplan]
      clear hplan
      induction before with
      | nil => simp [runSteps, hst]
      | cons b rest ih =>
        have hb : b.failure = none := hbefore b (List.mem_cons_self _ _)
        have hrest := ih (fun s hs => hbefore s (List.mem_cons_of_mem _ hs))
        show runSteps (b :: (rest ++ st :: after)) = _
        simp only [List.cons_append, runSteps, hb, hrest, List.map_cons]
    rw [herr, hcalls, hholder, hrun]
    simp
  · intro hall
    have hrun : (runSteps (specPlan env c)).2 = none := by
      generalize specPlan env c = l at hall
      induction l with
      | nil => rfl
      | cons b rest ih =>
        have hb : b.failure = none := hall b (List.mem_cons_self _ _)
        simp only [runSteps, hb]
        exact ih (fun s hs => hall s (List.mem_cons_of_mem _ hs))
    rw [herr, hcalls]
    exact ⟨hrun, runSteps_ok hrun⟩

/-- The compute constructor refuses the empty password: its error comes back as it is, no
holder, and nothing of storage or load balancer is called. -/
theorem Client_first_failure_witness :
    (Config.Client sampleEnv noPasswordConfig sampleWorld).err =
        some { Error := "401 Unauthorized" } ∧
    (Config.Client sampleEnv noPasswordConfig sampleWorld).holder = none ∧
    (Config.Client sampleEnv noPasswordConfig sampleWorld).calls =
      [Event.ParseRequestURI "https://compute.example.com/",
        Event.NewComputeClient (specView sampleEnv noPasswordConfig .compute)] :=
  (Client_first_failure sampleEnv noPasswordConfig sampleWorld).2.2.2.2.1
    [{ event := Event.ParseRequestURI "https://compute.example.com/", failure := none }]
    (specSteps sampleEnv noPasswordConfig .storage ++ specSteps sampleEnv noPasswordConfig .lbaas)
    { event := Event.NewComputeClient (specView sampleEnv noPasswordConfig .compute)
      failure := some { Error := "401 Unauthorized" } }
    { Error := "401 Unauthorized" }
    (by decide) (by decide) rfl

/-- C4: the HTTP client every constructor is given skips TLS verification exactly when
`Insecure` is set (the clean default client, which itself verifies, is handed on untouched
otherwise), and all constructors of one call are given the same HTTP client. -/
theorem insecure_http_client (env : Env) (c : Config) (w : World)
    (hdef : env.DefaultClient.InsecureSkipVerify = false) :
    (∀ e ∈ (Config.Client env c w).calls, ∀ v, e.view = some v →
      ∃ h, v.HTTPClient = some h ∧
        (h.InsecureSkipVerify = true ↔ c.Insecure = true) ∧
        (c.Insecure = false → h = env.DefaultClient) ∧
        (c.Insecure = true → h =
          { env.DefaultClient with
            Transport := some
              { env.DefaultTransport with
                TLSClientConfig :=
                  some { InsecureSkipVerify := true, ServerName := "", MinVersion := 0 } } })) ∧
    (∀ e₁ ∈ (Config.Client env c w).calls, ∀ e₂ ∈ (Config.Client env c w).calls,
      ∀ v₁ v₂, e₁.view = some v₁ → e₂.view = some v₂ → v₁.HTTPClient = v₂.HTTPClient) := by
  constructor
  · intro e he v hv
    obtain ⟨s, _, rfl⟩ := Client_view_mem he hv
    refine ⟨specHTTPClient env c, rfl, ?_⟩
    cases hins : c.Insecure
    · simp [specHTTPClient, hins, hdef]
    · simp [specHTTPClient, hins, HTTPClient.InsecureSkipVerify]
  · intro e₁ he₁ e₂ he₂ v₁ v₂ hv₁ hv₂
    obtain ⟨s₁, _, rfl⟩ := Client_view_mem he₁ hv₁
    obtain ⟨s₂, _, rfl⟩ := Client_view_mem he₂ hv₂
    rfl

/-- The sample run: the default client verifies, the configuration is insecure, and the load
balancer constructor is given a client that skips verification. -/
theorem insecure_http_client_witness :
    sampleEnv.DefaultClient.InsecureSkipVerify = false ∧
    ∃ h, (specView sampleEnv sampleConfig .lbaas).HTTPClient = some h ∧
      (h.InsecureSkipVerify = true ↔ sampleConfig.Insecure = true) :=
  ⟨rfl,
    match (insecure_http_client sampleEnv sampleConfig sampleWorld rfl).1
      (Event.LBaaSNewClient (specView sampleEnv sampleConfig .lbaas)) (by decide)
      (specView sampleEnv sampleConfig .lbaas) rfl with
    | ⟨h, h₁, h₂, _⟩ => ⟨h, h₁, h₂⟩⟩

/-- C1: when `Config.Client` returns without error, each reference of the holder is nil and
its constructor is not called if the service has no endpoint, and is otherwise the client the
(single) call of that constructor returned; without any endpoint the result is a holder of
three nil references and a nil error. -/
theorem Client_references (env : Env) (c : Config) (w : World) :
    ((Config.Client env c w).err = none →
      ∃ holder, (Config.Client env c w).holder = some holder ∧
        (c.Endpoint = "" → holder.computeClient = none ∧
          ∀ v, Event.NewComputeClient v ∉ (Config.Client env c w).calls) ∧
        (c.Endpoint ≠ "" → ∃ v,
          (∀ u, Event.NewComputeClient u ∈ (Config.Client env c w).calls ↔ u = v) ∧
          holder.computeClient = (env.NewComputeClient v).1) ∧
        (c.StorageEndpoint = "" → holder.storageClient = none ∧
          ∀ v, Event.NewStorageClient v ∉ (Config.Client env c w).calls) ∧
        (c.StorageEndpoint ≠ "" → ∃ v,
          (∀ u, Event.NewStorageClient u ∈ (Config.Client env c w).calls ↔ u = v) ∧
          holder.storageClient = (env.NewStorageClient v).1) ∧
        (c.LBaaSEndpoint = "" → holder.lbaasClient = none ∧
          ∀ v, Event.LBaaSNewClient v ∉ (Config.Client env c w).calls) ∧
        (c.LBaaSEndpoint ≠ "" → ∃ v,
          (∀ u, Event.LBaaSNewClient u ∈ (Config.Client env c w).calls ↔ u = v) ∧
          holder.lbaasClient = (env.LBaaSNewClient v).1)) ∧
    (c.Endpoint = "" → c.StorageEndpoint = "" → c.LBaaSEndpoint = "" →
      (Config.Client env c w).holder =
          some { computeClient := none, storageClient := none, lbaasClient := none } ∧
        (Config.Client env c w).err = none ∧
        (Config.Client env c w).calls = []) := by
  obtain ⟨hcalls, herr, _, hholder⟩ := Client_spec env c w
  constructor
  · intro h
    rw [herr] at h
    rw [hholder, if_pos h, hcalls, runSteps_ok h]
    have hc := specPlan_call_mem env c .compute
    have hs := specPlan_call_mem env c .storage
    have hl := specPlan_call_mem env c .lbaas
    simp only [Service.call, Service.endpoint] at hc hs hl
    refine ⟨specHolder env c, rfl, ?_, ?_, ?_, ?_, ?_, ?_⟩
    · intro h0
      simp [specHolder, h0, hc]
    · intro h0
      exact ⟨specView env c .compute, by simp [hc, h0], by simp [specHolder, h0]⟩
    · intro h0
      simp [specHolder, h0, hs]
    · intro h0
      exact ⟨specView env c .storage, by simp [hs, h0], by simp [specHolder, h0]⟩
    · intro h0
      simp [specHolder, h0, hl]
    · intro h0
      exact ⟨specView env c .lbaas, by simp [hl, h0], by simp [specHolder, h0]⟩
  · intro h1 h2 h3
    have hplan : specPlan env c = [] := by
      simp [specPlan, specSteps, Service.endpoint, h1, h2, h3]
    rw [hholder, herr, hcalls, hplan]
    simp [runSteps, specHolder, h1, h2, h3]

/-- The sample run succeeds and has a holder; the run without endpoints returns the empty
holder, no error, and calls nothing. -/
theorem Client_references_witness :
    ((Config.Client sampleEnv sampleConfig sampleWorld).err = none ∧
      ∃ holder, (Config.Client sampleEnv sampleConfig sampleWorld).holder = some holder) ∧
    ((Config.Client sampleEnv bareConfig sampleWorld).holder =
        some { computeClient := none, storageClient := none, lbaasClient := none } ∧
      (Config.Client sampleEnv bareConfig sampleWorld).err = none ∧
      (Config.Client sampleEnv bareConfig sampleWorld).calls = []) :=
  ⟨⟨by decide,
      match (Client_references sampleEnv sampleConfig sampleWorld).1 (by decide) with
      | ⟨holder, hh, _⟩ => ⟨holder, hh⟩⟩,
    (Client_references sampleEnv bareConfig sampleWorld).2 rfl rfl rfl⟩

/-- C2: a non-empty endpoint that `url.ParseRequestURI` rejects, reached without an earlier
failure, makes `Config.Client` return a nil holder and an error whose message is the head
"Invalid Compute/Storage/LBaaS Endpoint URI: " followed by the parse error, and the
constructor of that service is not called. -/
theorem Client_invalid_endpoint (env : Env) (c : Config) (w : World) (e : GoError) :
    (c.Endpoint ≠ "" → (env.ParseRequestURI c.Endpoint).2 = some e →
      (Config.Client env c w).holder = none ∧
      (Config.Client env c w).err =
        some { Error := "Invalid Compute Endpoint URI: " ++ e.Error } ∧
      ∀ v, Event.NewComputeClient v ∉ (Config.Client env c w).calls) ∧
    (∀ f₁, Config.computeBlock env (Config.setup env c w) = .ok f₁ →
      c.StorageEndpoint ≠ "" → (env.ParseRequestURI c.StorageEndpoint).2 = some e →
      (Config.Client env c w).holder = none ∧
      (Config.Client env c w).err =
        some { Error := "Invalid Storage Endpoint URI: " ++ e.Error } ∧
      ∀ v, Event.NewStorageClient v ∉ (Config.Client env c w).calls) ∧
    (∀ f₁ f₂, Config.computeBlock env (Config.setup env c w) = .ok f₁ →
      Config.storageBlock env f₁ = .ok f₂ →
      c.LBaaSEndpoint ≠ "" → (env.ParseRequestURI c.LBaaSEndpoint).2 = some e →
      (Config.Client env c w).holder = none ∧
      (Config.Client env c w).err =
        some { Error := "Invalid LBaaS Endpoint URI: " ++ e.Error } ∧
      ∀ v, Event.LBaaSNewClient v ∉ (Config.Client env c w).calls) := by
  obtain ⟨hcalls, herr, _, hholder⟩ := Client_spec env c w
  rw [hholder, herr, hcalls]
  simp only [specPlan, runSteps_append]
  refine ⟨fun h hp => ?_, fun f₁ hb₁ h hp => ?_, fun f₁ f₂ hb₁ hb₂ h hp => ?_⟩
  · have hrun := specSteps_parse_fails Service.compute h hp
    simp [hrun, fmt.Errorf, fmt.Sprintf, Service.errorHead, Service.endpoint]
  · obtain ⟨h1, _, _⟩ := computeBlock_ok hb₁
    have hrun := specSteps_parse_fails Service.storage h hp
    have hno : ∀ v, Event.NewStorageClient v ∉ (runSteps (specSteps env c .compute)).1 := by
      intro v hv
      have := runSteps_mem hv
      rw [specSteps_events] at this
      split at this <;> simp [Service.call] at this
    simp [h1, hrun, fmt.Errorf, fmt.Sprintf, Service.errorHead, Service.endpoint, hno]
  · obtain ⟨h1, hr₁, hcl₁⟩ := computeBlock_ok hb₁
    have h2 := storageBlock_ok hr₁ hcl₁ hb₂
    have hrun := specSteps_parse_fails Service.lbaas h hp
    have hno₁ : ∀ v, Event.LBaaSNewClient v ∉ (runSteps (specSteps env c .compute)).1 := by
      intro v hv
      have := runSteps_mem hv
      rw [specSteps_events] at this
      split at this <;> simp [Service.call] at this
    have hno₂ : ∀ v, Event.LBaaSNewClient v ∉ (runSteps (specSteps env c .storage)).1 := by
      intro v hv
      have := runSteps_mem hv
      rw [specSteps_events] at this
      split at this <;> simp [Service.call] at this
    simp [h1, h2, hrun, fmt.Errorf, fmt.Sprintf, Service.errorHead, Service.endpoint, hno₁,
      hno₂]

/-- The storage endpoint of the sample is not a request URI: compute is built first, then the
run ends with the storage message and without a storage constructor call. -/
theorem Client_invalid_endpoint_witness :
    (Config.Client sampleEnv badStorageConfig sampleWorld).holder = none ∧
    (Config.Client sampleEnv badStorageConfig sampleWorld).err =
      some { Error := "Invalid Storage Endpoint URI: " ++
        "parse storage.example.com: invalid URI for request" } ∧
    ∀ v, Event.NewStorageClient v ∉ (Config.Client sampleEnv badStorageConfig sampleWorld).calls :=
  (Client_invalid_endpoint sampleEnv badStorageConfig sampleWorld
    { Error := "parse storage.example.com: invalid URI for request" }).2.1 _ rfl
    (by decide) (by decide)

/-- C3: `getLBaaSClient` fails (nil client, non-nil error) exactly when the holder's load
balancer reference is nil and otherwise returns that reference with a nil error; a holder
that `Config.Client` built from a configuration without `LBaaSEndpoint` always gets the
"Load Balancer API client has not been initialized" error. -/
theorem getLBaaSClient_spec (holder : Client) :
    (holder.getLBaaSClient.2 ≠ none ↔ holder.lbaasClient = none) ∧
    (holder.getLBaaSClient.2 ≠ none → holder.getLBaaSClient.1 = none) ∧
    (holder.lbaasClient ≠ none → holder.getLBaaSClient = (holder.lbaasClient, none)) ∧
    (∀ (env : Env) (c : Config) (w : World), c.LBaaSEndpoint = "" →
      (Config.Client env c w).holder = some holder →
      holder.getLBaaSClient = (none, some { Error := lbaasNotInitialized })) ∧
    (∃ rest, lbaasNotInitialized =
      "Load Balancer API client has not been initialized" ++ rest) := by
  refine ⟨?_, ?_, ?_, ?_, ?_⟩
  · cases h : holder.lbaasClient <;> simp [Client.getLBaaSClient, h]
  · cases h : holder.lbaasClient <;> simp [Client.getLBaaSClient, h]
  · cases h : holder.lbaasClient <;> simp [Client.getLBaaSClient, h]
  · intro env c w hl hh
    rw [(Client_spec env c w).2.2.2] at hh
    split at hh
    · simp only [Option.some.injEq] at hh
      subst hh
      simp [Client.getLBaaSClient, specHolder, hl]
    · cases hh
  · exact ⟨". Ensure the `lbaas_endpoint` for the Load Balancer Classic REST API Endpoint has been declared in the provider configuration.", rfl⟩

/-- The holder of the run without endpoints has no load balancer client to give. -/
theorem getLBaaSClient_spec_witness :
    Client.getLBaaSClient { computeClient := none, storageClient := none, lbaasClient := none } =
      (none, some { Error := lbaasNotInitialized }) :=
  (getLBaaSClient_spec _).2.2.2.1 sampleEnv bareConfig sampleWorld rfl (by decide)

/-- C5: `opcLogger.Log` prints exactly one line, "go-oracle-terraform: " followed by the
arguments of dynamic type string in their order, joined by single spaces; other arguments
leave no trace, and without string arguments the line is the bare head. -/
theorem Log_message (l : opcLogger) (args : List GoValue) (w : World) :
    (opcLogger.Log l args w).logged =
      w.logged ++
        [{ flags := 0
           msg := "go-oracle-terraform: " ++
             String.intercalate " " (args.filterMap GoValue.assertString) }] ∧
    ((∀ a ∈ args, a.assertString = none) →
      (opcLogger.Log l args w).logged =
        w.logged ++ [{ flags := 0, msg := "go-oracle-terraform: " }]) ∧
    (∀ (front back : List GoValue) (a : GoValue), args = front ++ a :: back →
      a.assertString = none →
      (opcLogger.Log l args w).logged = (opcLogger.Log l (front ++ back) w).logged) := by
  have hlog : ∀ xs : List GoValue, (opcLogger.Log l xs w).logged =
      w.logged ++
        [{ flags := 0
           msg := "go-oracle-terraform: " ++
             String.intercalate " " (xs.filterMap GoValue.assertString) }] := by
    intro xs
    simp only [opcLogger.Log, log.Print, log.SetFlags, fmt.Sprintf, tokens_eq_filterMap,
      Join_eq_intercalate]
  refine ⟨hlog args, ?_, ?_⟩
  · intro hall
    have hnil : args.filterMap GoValue.assertString = [] := by
      rw [List.filterMap_eq_nil_iff]
      exact hall
    rw [hlog, hnil]
    rfl
  · intro front back a hargs ha
    rw [hlog, hlog, hargs]
    simp [List.filterMap_append, List.filterMap_cons, ha]

/-- An integer and a value of a defined string type between two strings leave no trace in
the line. -/
theorem Log_message_witness :
    (opcLogger.Log {}
        [GoValue.string "GET", GoValue.int 3, GoValue.named "Verb" "POST",
          GoValue.string "/instance"]
        sampleWorld).logged =
      [{ flags := 0, msg := "go-oracle-terraform: GET /instance" }] :=
  (Log_message {}
    [GoValue.string "GET", GoValue.int 3, GoValue.named "Verb" "POST",
      GoValue.string "/instance"]
    sampleWorld).1.trans (by decide)

/-- C6 fails as stated: with the flags the standard logger starts with (`LstdFlags`, 3), one
call of `opcLogger.Log` leaves them at 0. -/
theorem Log_changes_flags :
    (opcLogger.Log {} [GoValue.string "GET", GoValue.string "/instance"] sampleWorld).stdFlags
      ≠ sampleWorld.stdFlags := by
  decide

/-- C6, amended: `opcLogger.Log` sets the output flags of the standard logger to 0, so they
are as before exactly when they were 0 already; it leaves the line header as it was and adds
one line to what was printed. -/
theorem Log_frame (l : opcLogger) (args : List GoValue) (w : World) :
    (opcLogger.Log l args w).stdFlags = 0 ∧
    ((opcLogger.Log l args w).stdFlags = w.stdFlags ↔ w.stdFlags = 0) ∧
    (opcLogger.Log l args w).stdHeader = w.stdHeader ∧
    (∃ line, (opcLogger.Log l args w).logged = w.logged ++ [line]) ∧
    (w.stdFlags = 0 →
      opcLogger.Log l args w = { w with logged := (opcLogger.Log l args w).logged }) := by
  refine ⟨rfl, ?_, rfl, ⟨_, rfl⟩, ?_⟩
  · simp only [opcLogger.Log, log.Print, log.SetFlags]
    exact eq_comm
  · intro h0
    cases w
    simp_all [opcLogger.Log, log.Print, log.SetFlags]


/-- On the fresh standard logger the flags end at 0 and the header stays empty. -/
theorem Log_frame_witness :
    (opcLogger.Log {} [GoValue.string "GET"] sampleWorld).stdFlags = 0 ∧
    (opcLogger.Log {} [GoValue.string "GET"] sampleWorld).stdHeader = "" :=
  ⟨(Log_frame {} [GoValue.string "GET"] sampleWorld).1,
    (Log_frame {} [GoValue.string "GET"] sampleWorld).2.2.1⟩
end Opc
